import Mathlib

/-!
Verification of the `lab` reinforcement-learning experiment harness.

This file gives a shallow embedding of the repository's Python sources:

* `src/lab/agents/q_learning_agent.py` — the tabular Q-learning agent,
* `src/lab/core/experiment.py`        — the experiment control loop,
* `src/lab/core/agent.py`             — the abstract agent base class,
* `src/lab/core/environment.py`       — the abstract environment contract,
* `src/lab/agents/random_agent.py`    — the random baseline agent.

Python floats are modelled by `ℚ`; numpy's process-global random
generator (`np.random`) is modelled by an explicit stream-with-position
state that every draw advances; the Python `while` loops are modelled
by structural recursion on an explicit fuel argument.  Fallible code
(the `NameError` raised by the undefined `epsilon_f` variable, tuple
unpacking) is modelled with `Option`/`Except`.
-/

namespace Np

/-- Model of the process-global numpy random generator `np.random`:
two value streams (one read by `np.random.random`, one by
`np.random.randint`) and a single position that every draw advances. -/
structure NpRng where
  randomVals : ℕ → ℚ
  randintVals : ℕ → ℕ
  pos : ℕ

/-- `np.random.random()`: return the next float draw and advance. -/
def randomNext (g : NpRng) : ℚ × NpRng :=
  (g.randomVals g.pos, { g with pos := g.pos + 1 })

/-- `np.random.randint(n)`: return the next integer draw reduced into
`[0, n)` and advance. -/
def randintNext (g : NpRng) (n : ℕ) : ℕ × NpRng :=
  (g.randintVals g.pos % n, { g with pos := g.pos + 1 })

/-- `np.argmax` over the first `n` entries of a row: index of the
maximal entry, ties broken toward the lowest index (numpy keeps the
first occurrence of the maximum). -/
def npArgmax (row : ℕ → ℚ) (n : ℕ) : ℕ :=
  (List.range n).foldl (fun best i => if row best < row i then i else best) 0

/-- `np.max` over the first `n` entries of a row. -/
def npMax (row : ℕ → ℚ) (n : ℕ) : ℚ :=
  (List.range n).foldl (fun m i => max m (row i)) (row 0)

end Np

namespace QLearningAgent

open Np

/-- The mutable state of a `QLearningAgent` (fields of
`q_learning_agent.py`), plus the `eval_mode` attribute that
`Experiment` assigns on the agent object before each phase.
`q` is the numpy table `self._q`, `lastObservation` is
`self._last_observation` (`Option` models Python's `None`). -/
structure QState where
  actionSpaceN : ℕ
  observationSpaceN : ℕ
  alpha : ℚ
  gamma : ℚ
  epsilonI : ℚ
  epsilonF : ℚ
  epsilonN : ℕ
  stepCount : ℕ
  lastObservation : Option ℕ
  evalMode : Bool
  q : ℕ → ℕ → ℚ

/-- `QLearningAgent.__init__`: hyperparameters stored, step counter 0,
no last observation, zero-initialized Q table.  (The source's
`super()` call does not run `Agent.__init__`, so `eval_mode` is only
present once `Experiment` assigns it; we carry it as a field,
initially `false` as `Agent.__init__` would set it.) -/
def init (actionSpaceN observationSpaceN : ℕ) (alpha gamma epsilonI epsilonF : ℚ)
    (epsilonN : ℕ) : QState :=
  { actionSpaceN := actionSpaceN
    observationSpaceN := observationSpaceN
    alpha := alpha
    gamma := gamma
    epsilonI := epsilonI
    epsilonF := epsilonF
    epsilonN := epsilonN
    stepCount := 0
    lastObservation := none
    evalMode := false
    q := fun _ _ => 0 }

/-- `QLearningAgent._choose_greedy_action`:
`np.argmax(self._q[observation])`. -/
def chooseGreedyAction (s : QState) (observation : ℕ) : ℕ :=
  npArgmax (s.q observation) s.actionSpaceN

/-- The exploration rate computed inside
`QLearningAgent._choose_epsilon_greedy_action`.  When
`self._step_count < self._epsilon_n` the linear-decay formula is used;
otherwise the source reads the undefined local variable `epsilon_f`,
which raises `NameError` — modelled as `none`. -/
def computeEpsilon (s : QState) : Option ℚ :=
  if s.stepCount < s.epsilonN then
    some (s.epsilonI - s.stepCount * (s.epsilonI - s.epsilonF) / s.epsilonN)
  else
    none

/-- `QLearningAgent._choose_epsilon_greedy_action`: compute ε, then
with probability ε take a uniformly random action, otherwise the
greedy action.  `none` propagates the `NameError` of the undefined
`epsilon_f` branch. -/
def chooseEpsilonGreedyAction (s : QState) (observation : ℕ) (g : NpRng) :
    Option (ℕ × NpRng) :=
  match computeEpsilon s with
  | none => none
  | some epsilon =>
    let (u, g1) := randomNext g
    if u < epsilon then
      some (randintNext g1 s.actionSpaceN)
    else
      some (chooseGreedyAction s observation, g1)

/-- `QLearningAgent._choose_action(observation, eval_mode=False)`. -/
def chooseAction (s : QState) (observation : ℕ) (evalModeArg : Bool) (g : NpRng) :
    Option (ℕ × NpRng) :=
  if evalModeArg then some (chooseGreedyAction s observation, g)
  else chooseEpsilonGreedyAction s observation g

/-- `QLearningAgent.begin_episode`: set the step counter to 1, record
the observation, then choose an action.  The source calls
`self._choose_action(observation)` with `eval_mode` left at its
default `False`, never forwarding the agent's `eval_mode` attribute. -/
def beginEpisode (s : QState) (observation : ℕ) (g : NpRng) :
    Option (ℕ × QState × NpRng) :=
  let s1 := { s with stepCount := 1, lastObservation := some observation }
  match chooseAction s1 observation false g with
  | none => none
  | some (a, g1) => some (a, s1, g1)

/-- The TD update of `QLearningAgent.step` applied to the table.
When `lastObservation` is `some lastObs`, the Python statement
`self._q[self._last_observation, action] += self._alpha * (target - ...)`
updates the single cell `(lastObs, action)`.  When it is `none`
(Python `None`), numpy basic indexing treats `None` as `np.newaxis`,
so `self._q[None, action]` is a `(1, n)` view of the whole row
`action` and the `+=` updates every cell of that row. -/
def tdUpdate (s : QState) (action : ℕ) (target : ℚ) : ℕ → ℕ → ℚ :=
  match s.lastObservation with
  | some lastObs => fun i j =>
      if i = lastObs ∧ j = action then
        s.q i j + s.alpha * (target - s.q i j)
      else s.q i j
  | none => fun i j =>
      if i = action then
        s.q i j + s.alpha * (target - s.q i j)
      else s.q i j

/-- `QLearningAgent.step(reward, observation)`: choose an action for
the new observation (again with `eval_mode` left at the default
`False`), perform the TD update
`target = reward + γ · max(self._q[observation])` into
`self._q[self._last_observation, action]` — note: indexed by the
action just chosen for the *new* observation — then increment the
step counter and advance the last observation. -/
def step (s : QState) (reward : ℚ) (observation : ℕ) (g : NpRng) :
    Option (ℕ × QState × NpRng) :=
  match chooseAction s observation false g with
  | none => none
  | some (action, g1) =>
    let target := reward + s.gamma * npMax (s.q observation) s.actionSpaceN
    let s1 := { s with
      q := tdUpdate s action target
      stepCount := s.stepCount + 1
      lastObservation := some observation }
    some (action, s1, g1)

/-- `QLearningAgent.end_episode(reward)`: clear the last
observation (the reward argument is ignored; the step counter is not
reset here). -/
def endEpisode (s : QState) (reward : ℚ) : QState :=
  { s with lastObservation := none }

end QLearningAgent

namespace Experiment

/-- The environment interface exactly as `Experiment` consumes it
(`experiment.py`): `reset()` returns an initial observation, and the
episode loop unpacks `observation, reward, is_terminal, _` from
`environment.step(action)` — four components, the fourth discarded.
Internal environment mutation is modelled by threading a state of
type `σ`. -/
structure EnvModel (σ : Type) where
  reset : σ → ℕ × σ
  step : σ → ℕ → ℕ × ℚ × Bool × σ

/-- The agent interface exactly as `Experiment` consumes it:
`begin_episode(observation)` (return value discarded), `act()`,
`learn(reward, observation)`, `end_episode()` (no argument), and the
`eval_mode` attribute assignment done at the start of each phase.
Internal agent mutation is modelled by threading a state of type `α`. -/
structure AgentModel (α : Type) where
  beginEpisode : α → ℕ → α
  act : α → ℕ × α
  learn : α → ℚ → ℕ → α
  endEpisode : α → α
  setEvalMode : α → Bool → α

variable {σ α : Type}

/-- One execution of the body of the `while True` loop of
`Experiment._run_one_episode`, up to the accumulation and break test:
`action = agent.act()`; `observation, reward, is_terminal, _ =
environment.step(action)`; `agent.learn(reward, observation)`.
Returns the advanced (environment, agent) pair together with the
reward and terminal flag of the transition. -/
def iterOnce (env : EnvModel σ) (ag : AgentModel α) (p : σ × α) :
    (σ × α) × ℚ × Bool :=
  let (action, as1) := ag.act p.2
  let (observation, reward, isTerm, es1) := env.step p.1 action
  ((es1, ag.learn as1 reward observation), reward, isTerm)

/-- The (environment, agent) pair after `n` executions of the episode
loop body, starting from `p`. -/
def iterState (env : EnvModel σ) (ag : AgentModel α) (p : σ × α) : ℕ → σ × α
  | 0 => p
  | n + 1 => (iterOnce env ag (iterState env ag p n)).1

/-- The reward produced by the `n`-th (0-based) execution of the
episode loop body, starting from `p`. -/
def rewardAt (env : EnvModel σ) (ag : AgentModel α) (p : σ × α) (n : ℕ) : ℚ :=
  (iterOnce env ag (iterState env ag p n)).2.1

/-- The terminal flag produced by the `n`-th (0-based) execution of
the episode loop body, starting from `p`. -/
def terminalAt (env : EnvModel σ) (ag : AgentModel α) (p : σ × α) (n : ℕ) : Bool :=
  (iterOnce env ag (iterState env ag p n)).2.2

/-- The `while True` loop of `Experiment._run_one_episode`: run the
body, accumulate `total_reward` and `step_count`, and break when
`is_terminal or step_count == self._max_steps_per_episode`.  The
Python loop has no fuel; recursion is on an explicit fuel argument
and `none` means the loop did not break within `fuel` iterations. -/
def episodeLoop (env : EnvModel σ) (ag : AgentModel α) (maxSteps : ℕ) :
    ℕ → σ × α → ℕ → ℚ → Option (ℕ × ℚ × σ × α)
  | 0, _, _, _ => none
  | fuel + 1, p, stepCount, totalReward =>
    let r1 := iterOnce env ag p
    let totalReward1 := totalReward + r1.2.1
    let stepCount1 := stepCount + 1
    if r1.2.2 || stepCount1 == maxSteps then
      some (stepCount1, totalReward1, r1.1.1, r1.1.2)
    else
      episodeLoop env ag maxSteps fuel r1.1 stepCount1 totalReward1

/-- The prologue of `Experiment._run_one_episode`:
`initial_observation = environment.reset()` followed by
`agent.begin_episode(initial_observation)` (return value ignored)
gives the (environment, agent) pair the loop starts from. -/
def episodeStart (env : EnvModel σ) (ag : AgentModel α) (es : σ) (as : α) : σ × α :=
  ((env.reset es).2, ag.beginEpisode as (env.reset es).1)

/-- `Experiment._run_one_episode`: reset the environment,
`agent.begin_episode(initial_observation)` (return value ignored),
run the episode loop, then `agent.end_episode()` exactly once, and
return the episode's step count and total reward (together with the
final environment and agent states). -/
def runOneEpisode (env : EnvModel σ) (ag : AgentModel α) (maxSteps fuel : ℕ)
    (es : σ) (as : α) : Option (ℕ × ℚ × σ × α) :=
  match episodeLoop env ag maxSteps fuel (episodeStart env ag es as) 0 0 with
  | none => none
  | some (n, r, es1, as1) => some (n, r, es1, ag.endEpisode as1)

/-- The `while step_count < min_steps` loop of
`Experiment._run_one_phase`, parametrized over the episode process
`ep` (in the source, `self._run_one_episode()` on the current
environment/agent states, which `ep`'s state `τ` threads).  Recursion
is on an explicit fuel argument; `none` from `ep` (an episode that
never broke out of its loop) propagates. -/
def runOnePhaseAux (ep : τ → Option ((ℕ × ℚ) × τ)) (minSteps : ℕ) :
    ℕ → ℕ → ℚ → ℕ → τ → Option (ℕ × ℚ × ℕ × τ)
  | fuel, stepCount, totalReturn, numEpisodes, t =>
    if minSteps ≤ stepCount then
      some (stepCount, totalReturn, numEpisodes, t)
    else
      match fuel with
      | 0 => none
      | fuel + 1 =>
        match ep t with
        | none => none
        | some ((len, ret), t1) =>
          runOnePhaseAux ep minSteps fuel (stepCount + len) (totalReturn + ret)
            (numEpisodes + 1) t1

/-- `Experiment._run_one_phase(min_steps)`: starting from zero
accumulators, run whole episodes until the cumulative step count
reaches `min_steps`, and return
`(step_count, total_return, num_episodes)` (plus the threaded
state).  The fuel `minSteps` is provably sufficient whenever every
episode takes at least one step. -/
def runOnePhase (ep : τ → Option ((ℕ × ℚ) × τ)) (minSteps : ℕ) (t : τ) :
    Option (ℕ × ℚ × ℕ × τ) :=
  runOnePhaseAux ep minSteps minSteps 0 0 0 t

/-- A chain of episode results: `EpChain ep t ls t1` says that
running `ep` repeatedly from `t` produces exactly the
(length, return) pairs `ls` and ends in state `t1`. -/
inductive EpChain (ep : τ → Option ((ℕ × ℚ) × τ)) : τ → List (ℕ × ℚ) → τ → Prop
  | nil (t : τ) : EpChain ep t [] t
  | cons {t : τ} {p : ℕ × ℚ} {t1 : τ} {l : List (ℕ × ℚ)} {t2 : τ} :
      ep t = some (p, t1) → EpChain ep t1 l t2 → EpChain ep t (p :: l) t2

/-- The statistics dictionary created by `Experiment._reset`:
the four metric keys, each mapped to an ordered list of per-iteration
values, in insertion order. -/
structure Stats where
  trainAverageReturns : List ℚ
  trainEpisodeCounts : List ℕ
  evalAverageReturns : List ℚ
  evalEpisodeCounts : List ℕ
deriving DecidableEq

/-- `Experiment._reset`: a fresh statistics dictionary with the four
keys each mapped to an empty list. -/
def resetStats : Stats :=
  { trainAverageReturns := []
    trainEpisodeCounts := []
    evalAverageReturns := []
    evalEpisodeCounts := [] }

/-- Configuration fields of `Experiment.__init__` that the control
loop reads. -/
structure Config where
  numIterations : ℕ
  trainSteps : ℕ
  evalSteps : ℕ
  maxStepsPerEpisode : ℕ

/-- The episode process used by the phases: one
`Experiment._run_one_episode` on the current (environment, agent)
pair, with fuel equal to the episode step cap. -/
def episodeProcess (env : EnvModel σ) (ag : AgentModel α) (maxSteps : ℕ) :
    σ × α → Option ((ℕ × ℚ) × (σ × α)) :=
  fun p =>
    match runOneEpisode env ag maxSteps maxSteps p.1 p.2 with
    | none => none
    | some (n, r, es1, as1) => some ((n, r), (es1, as1))

/-- `Experiment._run_train_phase`: set `agent.eval_mode = False`, run
one phase with `min_steps = self._train_steps`, and append the phase's
average return (`total_return / num_episodes`, or `0.` when no episode
ran) and episode count to the train statistics lists. -/
def runTrainPhase (env : EnvModel σ) (ag : AgentModel α) (cfg : Config)
    (es : σ) (as : α) (stats : Stats) : Option (σ × α × Stats) :=
  match runOnePhase (episodeProcess env ag cfg.maxStepsPerEpisode) cfg.trainSteps
      (es, ag.setEvalMode as false) with
  | none => none
  | some (_, totalReturn, numEpisodes, (es1, as1)) =>
    some (es1, as1, { stats with
      trainAverageReturns := stats.trainAverageReturns
        ++ [if 0 < numEpisodes then totalReturn / (numEpisodes : ℚ) else 0]
      trainEpisodeCounts := stats.trainEpisodeCounts ++ [numEpisodes] })

/-- `Experiment._run_eval_phase`: set `agent.eval_mode = True`, run
one phase with `min_steps = self._eval_steps`, and append the phase's
average return and episode count to the eval statistics lists. -/
def runEvalPhase (env : EnvModel σ) (ag : AgentModel α) (cfg : Config)
    (es : σ) (as : α) (stats : Stats) : Option (σ × α × Stats) :=
  match runOnePhase (episodeProcess env ag cfg.maxStepsPerEpisode) cfg.evalSteps
      (es, ag.setEvalMode as true) with
  | none => none
  | some (_, totalReturn, numEpisodes, (es1, as1)) =>
    some (es1, as1, { stats with
      evalAverageReturns := stats.evalAverageReturns
        ++ [if 0 < numEpisodes then totalReturn / (numEpisodes : ℚ) else 0]
      evalEpisodeCounts := stats.evalEpisodeCounts ++ [numEpisodes] })

/-- The `for iteration in range(self._num_iterations)` loop of
`Experiment.run`: train phase, eval phase, then the iteration
callback.  The callback receives the experiment and its statistics
and returns nothing; its invocations are modelled by the counter
`cbCount` (the default callback `do_nothing` has no effect on the
modelled state). -/
def runIterationsLoop (env : EnvModel σ) (ag : AgentModel α) (cfg : Config) :
    ℕ → σ → α → Stats → ℕ → Option (σ × α × Stats × ℕ)
  | 0, es, as, stats, cbCount => some (es, as, stats, cbCount)
  | n + 1, es, as, stats, cbCount =>
    match runTrainPhase env ag cfg es as stats with
    | none => none
    | some (es1, as1, stats1) =>
      match runEvalPhase env ag cfg es1 as1 stats1 with
      | none => none
      | some (es2, as2, stats2) =>
        runIterationsLoop env ag cfg n es2 as2 stats2 (cbCount + 1)

/-- `Experiment.run()`: reset the statistics to the fresh empty
state, then run `num_iterations` iterations (each a train phase, an
eval phase, and one iteration-callback invocation) and return the
statistics (together with final states and the number of callback
invocations). -/
def run (env : EnvModel σ) (ag : AgentModel α) (cfg : Config) (es : σ) (as : α) :
    Option (σ × α × Stats × ℕ) :=
  runIterationsLoop env ag cfg cfg.numIterations es as resetStats 0

/-- The seeding block of `Experiment.__init__`: when a seed is
supplied, `self._agent.seed(seed)` and `self._environment.seed(seed)`
are each called exactly once; when no seed is supplied, neither is
called. -/
def initSeeding (agentSeed : α → ℤ → α) (envSeed : σ → ℤ → σ)
    (seed : Option ℤ) (as : α) (es : σ) : α × σ :=
  match seed with
  | some sd => (agentSeed as sd, envSeed es sd)
  | none => (as, es)

end Experiment

namespace PyDyn

/-- A dynamically typed Python value, as produced by an environment's
`step` method and consumed duck-typed by the episode loop. -/
inductive PyObj where
  | int (n : ℤ)
  | float (q : ℚ)
  | bool (b : Bool)
  | pyNone
deriving DecidableEq

/-- Python numeric addition as used by `total_reward += reward`:
defined on numbers, a `TypeError` (`none`) otherwise. -/
def pyAdd : PyObj → PyObj → Option PyObj
  | .int a, .int b => some (.int (a + b))
  | .int a, .float b => some (.float (a + b))
  | .float a, .int b => some (.float (a + b))
  | .float a, .float b => some (.float (a + b))
  | _, _ => none

/-- Python truthiness, as used by `if is_terminal`. -/
def truthy : PyObj → Bool
  | .int n => n ≠ 0
  | .float q => q ≠ 0
  | .bool b => b
  | .pyNone => false

/-- An environment as a dynamically typed Python object: `step`
returns an arbitrary sequence of values (the tuple), which the caller
must unpack. -/
structure DynEnv (σ : Type) where
  reset : σ → PyObj × σ
  step : σ → ℤ → List PyObj × σ

/-- An agent consumed duck-typed by the episode loop. -/
structure DynAgent (α : Type) where
  beginEpisode : α → PyObj → α
  act : α → ℤ × α
  learn : α → PyObj → PyObj → α
  endEpisode : α → α

/-- Runtime errors the episode loop can raise, each tagged with the
number of completed loop iterations at the point of failure. -/
inductive DynError where
  | unpackError (stepCount : ℕ)
  | typeError (stepCount : ℕ)
  | fuelOut
deriving DecidableEq

variable {σ α : Type}

/-- The `while True` loop of `Experiment._run_one_episode` with the
environment's `step` result modelled as a dynamic tuple: the
statement `observation, reward, is_terminal, _ = environment.step(action)`
succeeds only on a four-element tuple and raises `ValueError`
(`unpackError`) on any other length. -/
def episodeLoopDyn (env : DynEnv σ) (ag : DynAgent α) (maxSteps : ℕ) :
    ℕ → σ × α → ℕ → PyObj → Except DynError (ℕ × PyObj × σ × α)
  | 0, _, _, _ => .error .fuelOut
  | fuel + 1, p, stepCount, totalReward =>
    let a1 := ag.act p.2
    let sr := env.step p.1 a1.1
    match sr.1 with
    | [observation, reward, isTerm, _] =>
      let as2 := ag.learn a1.2 reward observation
      match pyAdd totalReward reward with
      | none => .error (.typeError stepCount)
      | some totalReward1 =>
        if truthy isTerm || (stepCount + 1) == maxSteps then
          .ok (stepCount + 1, totalReward1, sr.2, as2)
        else
          episodeLoopDyn env ag maxSteps fuel (sr.2, as2) (stepCount + 1) totalReward1
    | _ => .error (.unpackError stepCount)

/-- The prologue of `Experiment._run_one_episode` over a dynamically
typed environment: reset, then `begin_episode` on the initial
observation. -/
def dynEpisodeStart (env : DynEnv σ) (ag : DynAgent α) (es : σ) (as : α) : σ × α :=
  ((env.reset es).2, ag.beginEpisode as (env.reset es).1)

/-- `Experiment._run_one_episode` over a dynamically typed
environment: reset, `begin_episode`, the loop, then `end_episode`. -/
def runOneEpisodeDyn (env : DynEnv σ) (ag : DynAgent α) (maxSteps fuel : ℕ)
    (es : σ) (as : α) : Except DynError (ℕ × PyObj × σ × α) :=
  match episodeLoopDyn env ag maxSteps fuel (dynEpisodeStart env ag es as) 0 (.float 0) with
  | .error e => .error e
  | .ok (n, r, es1, as1) => .ok (n, r, es1, ag.endEpisode as1)

end PyDyn

namespace Abc

/-- The abstract methods declared by the `Agent` base class in
`src/lab/core/agent.py`: `seed` and `act` are marked
`@abstractmethod`; `learn`, `begin_episode` and `end_episode` have
concrete (no-op) bodies. -/
def AgentAbstractMethods : List String := ["seed", "act"]

/-- The method names defined in the body of `QLearningAgent`
(`src/lab/agents/q_learning_agent.py`). -/
def QLearningAgentMethods : List String :=
  ["__init__", "_choose_action", "_choose_greedy_action",
   "_choose_epsilon_greedy_action", "begin_episode", "step", "end_episode"]

/-- The method names defined in the body of `RandomAgent`
(`src/lab/agents/random_agent.py`). -/
def RandomAgentMethods : List String :=
  ["__init__", "_choose_action", "begin_episode", "step", "end_episode"]

/-- Python's `ABCMeta` machinery: the abstract methods a subclass
inherits from `Agent` and does not override. -/
def remainingAbstract (definedMethods : List String) : List String :=
  AgentAbstractMethods.filter (fun m => ¬ definedMethods.contains m)

/-- `ABCMeta.__call__`: instantiating a class whose set of remaining
abstract methods is non-empty raises `TypeError` before `__init__`
runs. -/
def instantiationRaisesTypeError (definedMethods : List String) : Bool :=
  !(remainingAbstract definedMethods).isEmpty

end Abc

namespace Claims

open QLearningAgent Np

/-- A global-generator state whose float stream is constantly `u` and
whose integer stream is constantly `r`. -/
def rngConst (u : ℚ) (r : ℕ) : NpRng :=
  { randomVals := fun _ => u, randintVals := fun _ => r, pos := 0 }

/-- A freshly constructed agent: 2 actions, 2 observations, α = 1/2,
γ = 99/100, ε decaying from 1 to 1/20 over 50000 steps. -/
def agentFresh : QState := init 2 2 (1/2) (99/100) 1 (1/20) 50000

/-- The fresh agent one selection into an episode, having last
observed state 0 (the situation in which the claimed TD update of the
cell for the previously chosen action should happen). -/
def agentMid : QState := { agentFresh with stepCount := 1, lastObservation := some 0 }

/-- The fresh agent with its `eval_mode` attribute set to `True`, as
`Experiment._run_eval_phase` does before an evaluation phase. -/
def agentEval : QState := { agentFresh with evalMode := true }

/-- The fresh agent with its per-episode step counter at the decay
horizon `epsilon_n`. -/
def agentAtHorizon : QState := { agentFresh with stepCount := 50000 }

/-- A global-generator state whose integer stream enumerates the
naturals: the drawn value depends on the current position, as for the
shared process-global generator after some draws have been consumed. -/
def rngId : NpRng :=
  { randomVals := fun _ => 0, randintVals := fun k => k, pos := 0 }

/-- A deterministic stateless environment (as `Experiment` consumes
it): every step returns observation 0, reward 1 and a terminal flag,
so every episode lasts exactly one step. -/
def unitEnv : Experiment.EnvModel Unit :=
  { reset := fun _ => (0, ()), step := fun _ _ => (0, 1, true, ()) }

/-- A trivial agent implementing the interface `Experiment` consumes. -/
def unitAgent : Experiment.AgentModel Unit :=
  { beginEpisode := fun _ _ => ()
    act := fun _ => (0, ())
    learn := fun a _ _ => a
    endEpisode := fun a => a
    setEvalMode := fun a _ => a }

/-- An episode process taking exactly 3 steps per episode with return
0, for the concrete phase-accounting scenario of the specification. -/
def ep3 : Unit → Option ((ℕ × ℚ) × Unit) := fun _ => some ((3, 0), ())

/-- A small experiment configuration: 2 iterations, 1 train step and
1 eval step per iteration, episodes capped at 3 steps. -/
def smallConfig : Experiment.Config :=
  { numIterations := 2, trainSteps := 1, evalSteps := 1, maxStepsPerEpisode := 3 }

/-- An environment honouring the repository's declared `Environment`
contract: `step` returns exactly the triple
(observation, reward, isTerminal). -/
def tripleEnv : PyDyn.DynEnv Unit :=
  { reset := fun _ => (.int 0, ())
    step := fun _ _ => ([.int 0, .float 1, .bool true], ()) }

/-- A trivial dynamically typed agent. -/
def unitDynAgent : PyDyn.DynAgent Unit :=
  { beginEpisode := fun _ _ => ()
    act := fun _ => (0, ())
    learn := fun a _ _ => a
    endEpisode := fun a => a }

end Claims

open Claims QLearningAgent Np in
/-- Claim C1 (code bug): the TD update of `QLearningAgent.step` is
indexed by the action just chosen for the *new* observation, not by
the action previously chosen from the last observed state.  Failing
input: zero table, last state 0, previously chosen action 1,
transition reward 1 to observation 1; the global generator makes the
new selection pick action 0, so the updated cell is (0, 0) — which
receives α·r = 1/2 — while the claimed cell (0, 1) keeps value 0
instead of the claimed α·r. -/
theorem c1_step_updates_newly_chosen_action_cell :
    (QLearningAgent.step agentMid 1 1 (rngConst 0 0)).map
        (fun r => (r.1, r.2.1.q 0 1, r.2.1.q 0 0, r.2.1.lastObservation))
      = some (0, 0, 1/2, some 1) := by
  norm_num [QLearningAgent.step, QLearningAgent.chooseAction,
    QLearningAgent.chooseEpsilonGreedyAction, QLearningAgent.computeEpsilon,
    QLearningAgent.chooseGreedyAction, QLearningAgent.tdUpdate, agentMid, agentFresh,
    QLearningAgent.init, rngConst, Np.randomNext, Np.randintNext, Np.npMax, Np.npArgmax,
    List.range_succ]

open Claims QLearningAgent Np in
/-- Claim C2 (code bug): with the agent's `eval_mode` attribute set,
`begin_episode` still explores: `begin_episode` and `step` call
`_choose_action(observation)` with the `eval_mode` parameter left at
its default `False`, so the attribute is never consulted.  At the
failing input the greedy action for state 0 is 0, yet the selection
returns the random action 1. -/
theorem c2_eval_mode_ignored_by_action_selection :
    agentEval.evalMode = true
  ∧ QLearningAgent.chooseGreedyAction agentEval 0 = 0
  ∧ (QLearningAgent.beginEpisode agentEval 0 (rngConst 0 1)).map (fun r => r.1)
      = some 1 := by
  refine ⟨rfl, ?_, ?_⟩
  · norm_num [QLearningAgent.chooseGreedyAction, Np.npArgmax, agentEval, agentFresh,
      QLearningAgent.init, List.range_succ]
  · norm_num [QLearningAgent.beginEpisode, QLearningAgent.chooseAction,
      QLearningAgent.chooseEpsilonGreedyAction, QLearningAgent.computeEpsilon,
      QLearningAgent.chooseGreedyAction, agentEval, agentFresh, QLearningAgent.init,
      rngConst, Np.randomNext, Np.randintNext, Np.npArgmax, List.range_succ]

open Claims QLearningAgent Np in
/-- Claim C3 (code bug): below the decay horizon the exploration rate
follows the linear-decay formula, but at or beyond the horizon the
source reads the undefined local variable `epsilon_f`, so action
selection raises `NameError` (modelled by `none`) instead of
succeeding with ε held at `epsilon_final`. -/
theorem c3_epsilon_decay_and_horizon_name_error :
    (∀ s : QState, s.stepCount < s.epsilonN →
      QLearningAgent.computeEpsilon s
        = some (s.epsilonI - s.stepCount * (s.epsilonI - s.epsilonF) / s.epsilonN))
  ∧ ∀ (s : QState) (observation : ℕ) (g : NpRng), s.epsilonN ≤ s.stepCount →
      QLearningAgent.chooseEpsilonGreedyAction s observation g = none := by
  constructor
  · intro s h
    simp [QLearningAgent.computeEpsilon, h]
  · intro s observation g h
    simp [QLearningAgent.chooseEpsilonGreedyAction, QLearningAgent.computeEpsilon,
      Nat.not_lt.mpr h]

open Claims QLearningAgent Np in
/-- Witness for C3 at concrete inputs: the decay formula one step into
an episode, and the `NameError` at a step count equal to the horizon. -/
theorem c3_epsilon_decay_and_horizon_name_error_witness :
    QLearningAgent.computeEpsilon agentMid
      = some (agentMid.epsilonI
          - agentMid.stepCount * (agentMid.epsilonI - agentMid.epsilonF) / agentMid.epsilonN)
  ∧ QLearningAgent.chooseEpsilonGreedyAction agentAtHorizon 0 (rngConst 0 0) = none :=
  ⟨c3_epsilon_decay_and_horizon_name_error.1 agentMid (by decide),
   c3_epsilon_decay_and_horizon_name_error.2 agentAtHorizon 0 (rngConst 0 0) (by decide)⟩

open Claims QLearningAgent Np in
/-- Claim C7 (code bug): calling `step` with no recorded last
observation does not fail with an invalid-state error.  The numpy
expression `self._q[None, action]` is a whole-row view, so the call
returns normally, silently rewrites every cell of the chosen action's
row (here row 1 becomes 1/2 everywhere), leaves other rows untouched,
and records the new observation. -/
theorem c7_step_without_selection_returns_normally :
    (QLearningAgent.step agentFresh 1 0 (rngConst 0 1)).map
        (fun r => (r.1, r.2.1.q 1 0, r.2.1.q 1 1, r.2.1.q 0 0, r.2.1.lastObservation))
      = some (1, 1/2, 1/2, 0, some 0) := by
  norm_num [QLearningAgent.step, QLearningAgent.chooseAction,
    QLearningAgent.chooseEpsilonGreedyAction, QLearningAgent.computeEpsilon,
    QLearningAgent.chooseGreedyAction, QLearningAgent.tdUpdate, agentFresh,
    QLearningAgent.init, rngConst, Np.randomNext, Np.randintNext, Np.npMax, Np.npArgmax,
    List.range_succ]

/-- Claim C10 (confirmed): neither `QLearningAgent` nor `RandomAgent`
overrides the abstract methods `seed` and `act` of the `Agent` base
class, so Python's abstract-base-class machinery rejects
instantiation of either with a `TypeError`; in particular neither
shipped agent has a concrete `act` for the episode loop to call. -/
theorem c10_shipped_agents_not_instantiable :
    Abc.instantiationRaisesTypeError Abc.QLearningAgentMethods = true
  ∧ Abc.instantiationRaisesTypeError Abc.RandomAgentMethods = true
  ∧ Abc.remainingAbstract Abc.QLearningAgentMethods = ["seed", "act"]
  ∧ Abc.remainingAbstract Abc.RandomAgentMethods = ["seed", "act"] :=
  ⟨rfl, rfl, rfl, rfl⟩

namespace Experiment

variable {σ α : Type}

lemma iterState_shift (env : EnvModel σ) (ag : AgentModel α) (p : σ × α) :
    ∀ n, iterState env ag p (n + 1) = iterState env ag (iterOnce env ag p).1 n := by
  intro n
  induction n with
  | zero => rfl
  | succ n ih =>
    show (iterOnce env ag (iterState env ag p (n + 1))).1
        = (iterOnce env ag (iterState env ag (iterOnce env ag p).1 n)).1
    rw [ih]

lemma rewardAt_shift (env : EnvModel σ) (ag : AgentModel α) (p : σ × α) (n : ℕ) :
    rewardAt env ag p (n + 1) = rewardAt env ag (iterOnce env ag p).1 n := by
  unfold rewardAt
  rw [iterState_shift]

lemma terminalAt_shift (env : EnvModel σ) (ag : AgentModel α) (p : σ × α) (n : ℕ) :
    terminalAt env ag p (n + 1) = terminalAt env ag (iterOnce env ag p).1 n := by
  unfold terminalAt
  rw [iterState_shift]

lemma episodeLoop_spec (env : EnvModel σ) (ag : AgentModel α) (maxSteps : ℕ) :
    ∀ (fuel : ℕ) (p : σ × α) (stepCount : ℕ) (totalReward : ℚ),
      stepCount + fuel = maxSteps → 1 ≤ fuel →
      ∃ n, episodeLoop env ag maxSteps fuel p stepCount totalReward
          = some (stepCount + n,
              totalReward + ∑ k ∈ Finset.range n, rewardAt env ag p k,
              (iterState env ag p n).1, (iterState env ag p n).2)
        ∧ 1 ≤ n ∧ stepCount + n ≤ maxSteps
        ∧ (terminalAt env ag p (n - 1) = true ∨ stepCount + n = maxSteps)
        ∧ ∀ k, k + 1 < n → terminalAt env ag p k = false := by
  intro fuel
  induction fuel with
  | zero => intro p c r hsum h1; omega
  | succ fuel ih =>
    intro p c r hsum _
    show ∃ n, (if (iterOnce env ag p).2.2 || (c + 1) == maxSteps then
        some (c + 1, r + (iterOnce env ag p).2.1, (iterOnce env ag p).1.1,
          (iterOnce env ag p).1.2)
      else episodeLoop env ag maxSteps fuel (iterOnce env ag p).1 (c + 1)
        (r + (iterOnce env ag p).2.1)) = _ ∧ _
    by_cases hstop : ((iterOnce env ag p).2.2 || (c + 1) == maxSteps) = true
    · refine ⟨1, ?_, le_refl 1, by omega, ?_, by omega⟩
      · rw [if_pos hstop]
        have hrw : rewardAt env ag p 0 = (iterOnce env ag p).2.1 := rfl
        have hst : iterState env ag p 1 = (iterOnce env ag p).1 := rfl
        rw [Finset.sum_range_one, hrw, hst]
      · rcases Bool.or_eq_true_iff.mp hstop with hterm | heq
        · exact Or.inl hterm
        · exact Or.inr (beq_iff_eq.mp heq)
    · have hsplit : (iterOnce env ag p).2.2 = false ∧ ((c + 1) == maxSteps) = false := by
        rcases Bool.or_eq_false_iff.mp (Bool.not_eq_true _ |>.mp hstop) with ⟨h1, h2⟩
        exact ⟨h1, h2⟩
      have hne : c + 1 ≠ maxSteps := by
        intro hEq
        rw [hEq] at hsplit
        simp at hsplit
      have hfuel1 : 1 ≤ fuel := by omega
      obtain ⟨n, hEq, hn1, hle, hdisj, hmin⟩ :=
        ih (iterOnce env ag p).1 (c + 1) (r + (iterOnce env ag p).2.1) (by omega) hfuel1
      refine ⟨n + 1, ?_, by omega, by omega, ?_, ?_⟩
      · rw [if_neg hstop, hEq]
        have hsum1 : r + (iterOnce env ag p).2.1
              + ∑ k ∈ Finset.range n, rewardAt env ag (iterOnce env ag p).1 k
            = r + ∑ k ∈ Finset.range (n + 1), rewardAt env ag p k := by
          rw [Finset.sum_range_succ']
          have hr0 : rewardAt env ag p 0 = (iterOnce env ag p).2.1 := rfl
          have hrs : ∀ k, rewardAt env ag p (k + 1)
              = rewardAt env ag (iterOnce env ag p).1 k := fun k => rewardAt_shift env ag p k
          simp only [hrs, hr0]
          ring
        rw [hsum1, iterState_shift env ag p n]
        have hcn : c + 1 + n = c + (n + 1) := by omega
        rw [hcn]
      · rcases hdisj with hterm | hcap
        · left
          have hn : n + 1 - 1 = (n - 1) + 1 := by omega
          rw [hn, terminalAt_shift]
          exact hterm
        · right
          omega
      · intro k hk
        match k with
        | 0 => exact hsplit.1
        | j + 1 =>
          rw [terminalAt_shift]
          exact hmin j (by omega)

lemma runOneEpisode_spec (env : EnvModel σ) (ag : AgentModel α) (maxSteps : ℕ)
    (es : σ) (as : α) (h : 1 ≤ maxSteps) :
    ∃ n, runOneEpisode env ag maxSteps maxSteps es as
        = some (n,
            ∑ k ∈ Finset.range n, rewardAt env ag (episodeStart env ag es as) k,
            (iterState env ag (episodeStart env ag es as) n).1,
            ag.endEpisode (iterState env ag (episodeStart env ag es as) n).2)
      ∧ 1 ≤ n ∧ n ≤ maxSteps
      ∧ (terminalAt env ag (episodeStart env ag es as) (n - 1) = true ∨ n = maxSteps)
      ∧ ∀ k, k + 1 < n → terminalAt env ag (episodeStart env ag es as) k = false := by
  obtain ⟨n, hEq, hn1, hle, hdisj, hmin⟩ :=
    episodeLoop_spec env ag maxSteps maxSteps (episodeStart env ag es as) 0 0
      (by omega) h
  refine ⟨n, ?_, hn1, by omega, ?_, hmin⟩
  · unfold runOneEpisode
    rw [hEq]
    simp
  · rcases hdisj with hterm | hcap
    · exact Or.inl hterm
    · exact Or.inr (by omega)

end Experiment

open Claims Experiment in
/-- Claim C5 (confirmed): for every environment and agent (as consumed
by the experiment) and every positive step cap,
`Experiment._run_one_episode` terminates within
`max_steps_per_episode` steps: the loop stops at the first transition
reported terminal or at the step cap, whichever comes first, then
applies `end_episode` exactly once to the loop's final agent state,
and returns the episode's step count and the sum of its rewards. -/
theorem c5_run_one_episode_terminates {σ α : Type} (env : EnvModel σ)
    (ag : AgentModel α) (maxSteps : ℕ) (es : σ) (as : α) (h : 1 ≤ maxSteps) :
    ∃ n, runOneEpisode env ag maxSteps maxSteps es as
        = some (n,
            ∑ k ∈ Finset.range n, rewardAt env ag (episodeStart env ag es as) k,
            (iterState env ag (episodeStart env ag es as) n).1,
            ag.endEpisode (iterState env ag (episodeStart env ag es as) n).2)
      ∧ 1 ≤ n ∧ n ≤ maxSteps
      ∧ (terminalAt env ag (episodeStart env ag es as) (n - 1) = true ∨ n = maxSteps)
      ∧ ∀ k, k + 1 < n → terminalAt env ag (episodeStart env ag es as) k = false :=
  runOneEpisode_spec env ag maxSteps es as h

open Claims Experiment in
/-- Witness for C5: the always-terminal one-step environment under a
cap of 3 steps. -/
theorem c5_run_one_episode_terminates_witness :
    ∃ n, runOneEpisode unitEnv unitAgent 3 3 () ()
        = some (n,
            ∑ k ∈ Finset.range n, rewardAt unitEnv unitAgent (episodeStart unitEnv unitAgent () ()) k,
            (iterState unitEnv unitAgent (episodeStart unitEnv unitAgent () ()) n).1,
            unitAgent.endEpisode (iterState unitEnv unitAgent (episodeStart unitEnv unitAgent () ()) n).2)
      ∧ 1 ≤ n ∧ n ≤ 3
      ∧ (terminalAt unitEnv unitAgent (episodeStart unitEnv unitAgent () ()) (n - 1) = true ∨ n = 3)
      ∧ ∀ k, k + 1 < n → terminalAt unitEnv unitAgent (episodeStart unitEnv unitAgent () ()) k = false :=
  c5_run_one_episode_terminates unitEnv unitAgent 3 () () (by omega)

namespace Experiment

lemma runOnePhaseAux_spec {τ : Type} (ep : τ → Option ((ℕ × ℚ) × τ)) (minSteps : ℕ)
    (htotal : ∀ t, ∃ len ret t1, ep t = some ((len, ret), t1) ∧ 1 ≤ len) :
    ∀ (fuel : ℕ) (t : τ) (stepCount : ℕ) (totalReturn : ℚ) (numEpisodes : ℕ),
      minSteps ≤ stepCount + fuel →
      ∃ (ls : List (ℕ × ℚ)) (t1 : τ),
        runOnePhaseAux ep minSteps fuel stepCount totalReturn numEpisodes t
          = some (stepCount + (ls.map Prod.fst).sum, totalReturn + (ls.map Prod.snd).sum,
              numEpisodes + ls.length, t1)
        ∧ EpChain ep t ls t1
        ∧ (∀ q ∈ ls, 1 ≤ q.1)
        ∧ minSteps ≤ stepCount + (ls.map Prod.fst).sum
        ∧ ∀ k, k < ls.length → stepCount + ((ls.take k).map Prod.fst).sum < minSteps := by
  intro fuel
  induction fuel with
  | zero =>
    intro t c r n hsum
    refine ⟨[], t, ?_, EpChain.nil t, by simp, by simpa using hsum, by simp⟩
    rw [runOnePhaseAux, if_pos (by simpa using hsum)]
    simp
  | succ fuel ih =>
    intro t c r n hsum
    by_cases hc : minSteps ≤ c
    · refine ⟨[], t, ?_, EpChain.nil t, by simp, by simpa using hc, by simp⟩
      rw [runOnePhaseAux, if_pos hc]
      simp
    · obtain ⟨len, ret, t1, hept, hlen⟩ := htotal t
      obtain ⟨ls, t2, hEq, hchain, hones, hmin, hpre⟩ :=
        ih t1 (c + len) (r + ret) (n + 1) (by omega)
      refine ⟨(len, ret) :: ls, t2, ?_, EpChain.cons hept hchain, ?_, ?_, ?_⟩
      · rw [runOnePhaseAux, if_neg hc]
        show (match ep t with
          | none => none
          | some ((len, ret), t1) =>
            runOnePhaseAux ep minSteps fuel (c + len) (r + ret) (n + 1) t1) = _
        rw [hept]
        show runOnePhaseAux ep minSteps fuel (c + len) (r + ret) (n + 1) t1 = _
        rw [hEq]
        simp only [List.map_cons, List.sum_cons, List.length_cons, Option.some.injEq,
          Prod.mk.injEq]
        exact ⟨by omega, by ring, by omega, trivial⟩
      · intro q hq
        rcases List.mem_cons.mp hq with hq0 | hqs
        · rw [hq0]; exact hlen
        · exact hones q hqs
      · simp only [List.map_cons, List.sum_cons]
        omega
      · intro k hk
        match k with
        | 0 => simpa using by omega
        | j + 1 =>
          simp only [List.take_succ_cons, List.map_cons, List.sum_cons]
          have hj : j < ls.length := by
            simp only [List.length_cons] at hk
            omega
          have := hpre j hj
          omega

lemma runOnePhase_spec {τ : Type} (ep : τ → Option ((ℕ × ℚ) × τ)) (minSteps : ℕ)
    (htotal : ∀ t, ∃ len ret t1, ep t = some ((len, ret), t1) ∧ 1 ≤ len) (t : τ) :
    ∃ (ls : List (ℕ × ℚ)) (t1 : τ),
      runOnePhase ep minSteps t
        = some ((ls.map Prod.fst).sum, (ls.map Prod.snd).sum, ls.length, t1)
      ∧ EpChain ep t ls t1
      ∧ (∀ q ∈ ls, 1 ≤ q.1)
      ∧ minSteps ≤ (ls.map Prod.fst).sum
      ∧ ∀ k, k < ls.length → ((ls.take k).map Prod.fst).sum < minSteps := by
  obtain ⟨ls, t1, hEq, hchain, hones, hmin, hpre⟩ :=
    runOnePhaseAux_spec ep minSteps htotal minSteps t 0 0 0 (by omega)
  refine ⟨ls, t1, ?_, hchain, hones, by simpa using hmin, fun k hk => by simpa using hpre k hk⟩
  unfold runOnePhase
  rw [hEq]
  simp

end Experiment

open Claims Experiment in
/-- Claim C4 (confirmed): for every positive step floor,
`Experiment._run_one_phase` runs a whole number of complete episodes
(an `EpChain` of the episode process) and returns
`(step_count, total_return, num_episodes)` with `step_count` the sum
of the episode lengths, `step_count ≥ min_steps`, and every episode —
including the final, possibly overshooting one — started only while
the accumulated count was still below the floor (so none is ever
truncated); concretely, with `min_steps = 10` against episodes of
exactly 3 steps the phase returns 12 steps over 4 episodes. -/
theorem c4_phase_runs_whole_episodes :
    (∀ {τ : Type} (ep : τ → Option ((ℕ × ℚ) × τ)),
      (∀ t, ∃ len ret t1, ep t = some ((len, ret), t1) ∧ 1 ≤ len) →
      ∀ (minSteps : ℕ) (t : τ), 0 < minSteps →
      ∃ (ls : List (ℕ × ℚ)) (t1 : τ),
        runOnePhase ep minSteps t
          = some ((ls.map Prod.fst).sum, (ls.map Prod.snd).sum, ls.length, t1)
        ∧ EpChain ep t ls t1
        ∧ 0 < ls.length
        ∧ minSteps ≤ (ls.map Prod.fst).sum
        ∧ ∀ k, k < ls.length → ((ls.take k).map Prod.fst).sum < minSteps)
  ∧ runOnePhase ep3 10 () = some (12, 0, 4, ()) := by
  constructor
  · intro τ ep htotal minSteps t hpos
    obtain ⟨ls, t1, hEq, hchain, hones, hmin, hpre⟩ := runOnePhase_spec ep minSteps htotal t
    refine ⟨ls, t1, hEq, hchain, ?_, hmin, hpre⟩
    rcases ls with _ | ⟨q, ls⟩
    · simp only [List.map_nil, List.sum_nil] at hmin
      omega
    · simp
  · norm_num [runOnePhase, runOnePhaseAux, ep3]

open Claims Experiment in
/-- Witness for C4: the general phase property applied to the
3-step-per-episode process with a floor of 10 steps. -/
theorem c4_phase_runs_whole_episodes_witness :
    ∃ (ls : List (ℕ × ℚ)) (t1 : Unit),
      runOnePhase ep3 10 ()
        = some ((ls.map Prod.fst).sum, (ls.map Prod.snd).sum, ls.length, t1)
      ∧ EpChain ep3 () ls t1
      ∧ 0 < ls.length
      ∧ 10 ≤ (ls.map Prod.fst).sum
      ∧ ∀ k, k < ls.length → ((ls.take k).map Prod.fst).sum < 10 :=
  c4_phase_runs_whole_episodes.1 ep3
    (fun t => ⟨3, 0, (), rfl, by omega⟩) 10 () (by omega)

namespace Experiment

variable {σ α : Type}

lemma episodeProcess_total (env : EnvModel σ) (ag : AgentModel α) (maxSteps : ℕ)
    (h : 1 ≤ maxSteps) (p : σ × α) :
    ∃ len ret p1, episodeProcess env ag maxSteps p = some ((len, ret), p1) ∧ 1 ≤ len := by
  obtain ⟨n, hEq, hn1, _⟩ := runOneEpisode_spec env ag maxSteps p.1 p.2 h
  refine ⟨n, ∑ k ∈ Finset.range n, rewardAt env ag (episodeStart env ag p.1 p.2) k,
    ((iterState env ag (episodeStart env ag p.1 p.2) n).1,
      ag.endEpisode (iterState env ag (episodeStart env ag p.1 p.2) n).2), ?_, hn1⟩
  unfold episodeProcess
  rw [hEq]

lemma runTrainPhase_spec (env : EnvModel σ) (ag : AgentModel α) (cfg : Config)
    (h : 1 ≤ cfg.maxStepsPerEpisode) (es : σ) (as : α) (stats : Stats) :
    ∃ (es1 : σ) (as1 : α) (x : ℚ) (m : ℕ),
      runTrainPhase env ag cfg es as stats = some (es1, as1,
        { stats with
          trainAverageReturns := stats.trainAverageReturns ++ [x]
          trainEpisodeCounts := stats.trainEpisodeCounts ++ [m] }) := by
  obtain ⟨ls, t1, hEq, _⟩ :=
    runOnePhase_spec (episodeProcess env ag cfg.maxStepsPerEpisode) cfg.trainSteps
      (fun t => episodeProcess_total env ag cfg.maxStepsPerEpisode h t)
      (es, ag.setEvalMode as false)
  obtain ⟨esx, asx⟩ := t1
  refine ⟨esx, asx,
    (if 0 < ls.length then (ls.map Prod.snd).sum / (ls.length : ℚ) else 0), ls.length, ?_⟩
  unfold runTrainPhase
  rw [hEq]

lemma runEvalPhase_spec (env : EnvModel σ) (ag : AgentModel α) (cfg : Config)
    (h : 1 ≤ cfg.maxStepsPerEpisode) (es : σ) (as : α) (stats : Stats) :
    ∃ (es1 : σ) (as1 : α) (x : ℚ) (m : ℕ),
      runEvalPhase env ag cfg es as stats = some (es1, as1,
        { stats with
          evalAverageReturns := stats.evalAverageReturns ++ [x]
          evalEpisodeCounts := stats.evalEpisodeCounts ++ [m] }) := by
  obtain ⟨ls, t1, hEq, _⟩ :=
    runOnePhase_spec (episodeProcess env ag cfg.maxStepsPerEpisode) cfg.evalSteps
      (fun t => episodeProcess_total env ag cfg.maxStepsPerEpisode h t)
      (es, ag.setEvalMode as true)
  obtain ⟨esx, asx⟩ := t1
  refine ⟨esx, asx,
    (if 0 < ls.length then (ls.map Prod.snd).sum / (ls.length : ℚ) else 0), ls.length, ?_⟩
  unfold runEvalPhase
  rw [hEq]

lemma runIterationsLoop_spec (env : EnvModel σ) (ag : AgentModel α) (cfg : Config)
    (h : 1 ≤ cfg.maxStepsPerEpisode) :
    ∀ (n : ℕ) (es : σ) (as : α) (stats : Stats) (cbCount : ℕ),
    ∃ (es1 : σ) (as1 : α) (stats1 : Stats),
      runIterationsLoop env ag cfg n es as stats cbCount
        = some (es1, as1, stats1, cbCount + n)
      ∧ stats1.trainAverageReturns.length = stats.trainAverageReturns.length + n
      ∧ stats1.trainEpisodeCounts.length = stats.trainEpisodeCounts.length + n
      ∧ stats1.evalAverageReturns.length = stats.evalAverageReturns.length + n
      ∧ stats1.evalEpisodeCounts.length = stats.evalEpisodeCounts.length + n := by
  intro n
  induction n with
  | zero =>
    intro es as stats cbCount
    exact ⟨es, as, stats, rfl, rfl, rfl, rfl, rfl⟩
  | succ n ih =>
    intro es as stats cbCount
    obtain ⟨es1, as1, x, m, hTrain⟩ := runTrainPhase_spec env ag cfg h es as stats
    obtain ⟨es2, as2, y, m2, hEval⟩ := runEvalPhase_spec env ag cfg h es1 as1 _
    obtain ⟨es3, as3, stats3, hLoop, h1, h2, h3, h4⟩ :=
      ih es2 as2 _ (cbCount + 1)
    refine ⟨es3, as3, stats3, ?_, ?_, ?_, ?_, ?_⟩
    · show (match runTrainPhase env ag cfg es as stats with
        | none => none
        | some (es1, as1, stats1) =>
          match runEvalPhase env ag cfg es1 as1 stats1 with
          | none => none
          | some (es2, as2, stats2) =>
            runIterationsLoop env ag cfg n es2 as2 stats2 (cbCount + 1)) = _
      rw [hTrain]
      show (match runEvalPhase env ag cfg es1 as1 _ with
        | none => none
        | some (es2, as2, stats2) =>
          runIterationsLoop env ag cfg n es2 as2 stats2 (cbCount + 1)) = _
      rw [hEval]
      show runIterationsLoop env ag cfg n es2 as2 _ (cbCount + 1) = _
      rw [hLoop]
      have : cbCount + 1 + n = cbCount + (n + 1) := by omega
      rw [this]
    · simp only [h1, List.length_append, List.length_singleton]
      omega
    · simp only [h2, List.length_append, List.length_singleton]
      omega
    · simp only [h3, List.length_append, List.length_singleton]
      omega
    · simp only [h4, List.length_append, List.length_singleton]
      omega

end Experiment

open Claims Experiment in
/-- Claim C6 (confirmed): `Experiment.run()` starts from the freshly
reset statistics, performs exactly `num_iterations` repetitions of a
training phase, then an evaluation phase, then one
iteration-callback invocation (the returned invocation counter equals
`num_iterations`), and returns statistics holding the four keys
`train_average_returns`, `train_episode_counts`,
`eval_average_returns`, `eval_episode_counts`, each an ordered list
of exactly `num_iterations` per-iteration values. -/
theorem c6_run_statistics_shape {σ α : Type} (env : EnvModel σ) (ag : AgentModel α)
    (cfg : Config) (es : σ) (as : α) (h : 1 ≤ cfg.maxStepsPerEpisode) :
    ∃ (es1 : σ) (as1 : α) (stats : Stats),
      Experiment.run env ag cfg es as = some (es1, as1, stats, cfg.numIterations)
      ∧ stats.trainAverageReturns.length = cfg.numIterations
      ∧ stats.trainEpisodeCounts.length = cfg.numIterations
      ∧ stats.evalAverageReturns.length = cfg.numIterations
      ∧ stats.evalEpisodeCounts.length = cfg.numIterations := by
  obtain ⟨es1, as1, stats1, hLoop, h1, h2, h3, h4⟩ :=
    runIterationsLoop_spec env ag cfg h cfg.numIterations es as resetStats 0
  refine ⟨es1, as1, stats1, ?_, by simpa [resetStats] using h1, by simpa [resetStats] using h2,
    by simpa [resetStats] using h3, by simpa [resetStats] using h4⟩
  unfold Experiment.run
  rw [hLoop]
  have : 0 + cfg.numIterations = cfg.numIterations := by omega
  rw [this]

open Claims Experiment in
/-- Witness for C6: the one-step always-terminal environment with a
trivial agent, run for 2 iterations. -/
theorem c6_run_statistics_shape_witness :
    ∃ (es1 : Unit) (as1 : Unit) (stats : Stats),
      Experiment.run unitEnv unitAgent smallConfig () ()
          = some (es1, as1, stats, smallConfig.numIterations)
      ∧ stats.trainAverageReturns.length = smallConfig.numIterations
      ∧ stats.trainEpisodeCounts.length = smallConfig.numIterations
      ∧ stats.evalAverageReturns.length = smallConfig.numIterations
      ∧ stats.evalEpisodeCounts.length = smallConfig.numIterations :=
  c6_run_statistics_shape unitEnv unitAgent smallConfig () () (by decide)

open Claims QLearningAgent Np in
/-- Claim C8 (counterexample): the learning agent's action selection
draws from the process-global numpy generator, not from a seeded
source of its own (its state holds no random source and the class
defines no `seed` method).  With the agent state fixed — everything a
forwarded seed could possibly have influenced — merely advancing the
global generator's position (as a first same-seed run would) changes
the chosen action, so equal seeds do not make two experiments produce
identical action sequences or statistics. -/
theorem c8_same_state_different_global_position_changes_action :
    (QLearningAgent.beginEpisode agentFresh 0 rngId).map (fun r => r.1) = some 1
  ∧ (QLearningAgent.beginEpisode agentFresh 0 { rngId with pos := 1 }).map (fun r => r.1)
      = some 0 := by
  constructor
  · norm_num [QLearningAgent.beginEpisode, QLearningAgent.chooseAction,
      QLearningAgent.chooseEpsilonGreedyAction, QLearningAgent.computeEpsilon,
      QLearningAgent.chooseGreedyAction, agentFresh, QLearningAgent.init, rngId,
      Np.randomNext, Np.randintNext, Np.npArgmax, List.range_succ]
  · norm_num [QLearningAgent.beginEpisode, QLearningAgent.chooseAction,
      QLearningAgent.chooseEpsilonGreedyAction, QLearningAgent.computeEpsilon,
      QLearningAgent.chooseGreedyAction, agentFresh, QLearningAgent.init, rngId,
      Np.randomNext, Np.randintNext, Np.npArgmax, List.range_succ]

open Claims QLearningAgent Np Experiment in
/-- Claim C8 (amended): `Experiment.__init__` forwards a supplied seed
exactly once each to `agent.seed` and `environment.seed` (and not at
all when absent); but the learning agent's action selection is a
function of the agent state, the observation, and the global
generator's stream read from its current position — not of any
per-agent seeded source — so two same-seed Experiments are guaranteed
identical behaviour only when the global generator state at
corresponding draws also coincides. -/
theorem c8_seed_forwarded_once_action_depends_on_global_stream :
    (∀ {α σ : Type} (agentSeed : α → ℤ → α) (envSeed : σ → ℤ → σ) (sd : ℤ)
        (as : α) (es : σ),
        initSeeding agentSeed envSeed (some sd) as es = (agentSeed as sd, envSeed es sd)
      ∧ initSeeding agentSeed envSeed none as es = (as, es))
  ∧ ∀ (s : QState) (observation : ℕ) (evalModeArg : Bool) (g g1 : NpRng),
      (∀ k, g.randomVals (g.pos + k) = g1.randomVals (g1.pos + k)) →
      (∀ k, g.randintVals (g.pos + k) = g1.randintVals (g1.pos + k)) →
      (QLearningAgent.chooseAction s observation evalModeArg g).map (fun r => r.1)
        = (QLearningAgent.chooseAction s observation evalModeArg g1).map (fun r => r.1) := by
  constructor
  · intro α σ agentSeed envSeed sd as es
    exact ⟨rfl, rfl⟩
  · intro s observation evalModeArg g g1 hr hi
    have h0 : g.randomVals g.pos = g1.randomVals g1.pos := by simpa using hr 0
    have h1 : g.randintVals (g.pos + 1) = g1.randintVals (g1.pos + 1) := hi 1
    cases evalModeArg with
    | true => rfl
    | false =>
      show (QLearningAgent.chooseEpsilonGreedyAction s observation g).map (fun r => r.1)
          = (QLearningAgent.chooseEpsilonGreedyAction s observation g1).map (fun r => r.1)
      unfold QLearningAgent.chooseEpsilonGreedyAction
      cases hE : QLearningAgent.computeEpsilon s with
      | none => rfl
      | some eps =>
        simp only [Np.randomNext, Np.randintNext]
        rw [h0]
        by_cases hu : g1.randomVals g1.pos < eps
        · rw [if_pos hu, if_pos hu]
          simp [h1]
        · rw [if_neg hu, if_neg hu]
          simp

open Claims QLearningAgent Np Experiment in
/-- Witness for the amended C8: a constant-stream generator at two
different positions yields the same chosen action, and a supplied
seed is forwarded once to each seeding function. -/
theorem c8_seed_forwarded_once_action_depends_on_global_stream_witness :
    (QLearningAgent.chooseAction agentFresh 0 false (rngConst 0 0)).map (fun r => r.1)
      = (QLearningAgent.chooseAction agentFresh 0 false
          { rngConst 0 0 with pos := 5 }).map (fun r => r.1)
  ∧ initSeeding (fun (a : ℕ) (sd : ℤ) => a + sd.toNat)
      (fun (e : ℕ) (sd : ℤ) => e * sd.toNat) (some 7) 1 2 = (1 + 7, 2 * 7) :=
  ⟨c8_seed_forwarded_once_action_depends_on_global_stream.2 agentFresh 0 false
      (rngConst 0 0) { rngConst 0 0 with pos := 5 } (fun _ => rfl) (fun _ => rfl),
   (c8_seed_forwarded_once_action_depends_on_global_stream.1
      (fun (a : ℕ) (sd : ℤ) => a + sd.toNat)
      (fun (e : ℕ) (sd : ℤ) => e * sd.toNat) 7 1 2).1⟩

open Claims PyDyn in
/-- Claim C9 (confirmed): for every environment honouring the
repository's own declared contract — `step` returning exactly the
triple (observation, reward, isTerminal) — the episode loop of
`Experiment._run_one_episode`, which unpacks four values from
`environment.step(action)`, fails with a tuple-unpacking `ValueError`
on the very first environment step (failure index 0: no step
completes and the agent never learns). -/
theorem c9_triple_contract_env_fails_first_step {σ α : Type} (env : DynEnv σ)
    (ag : DynAgent α) (maxSteps fuel : ℕ) (es : σ) (as : α)
    (h3 : ∀ s a, (env.step s a).1.length = 3) (hf : 1 ≤ fuel) :
    runOneEpisodeDyn env ag maxSteps fuel es as
      = Except.error (DynError.unpackError 0) := by
  obtain ⟨f, rfl⟩ : ∃ f, fuel = f + 1 := ⟨fuel - 1, by omega⟩
  obtain ⟨x, y, z, hxyz⟩ := List.length_eq_three.mp
    (h3 (dynEpisodeStart env ag es as).1 (ag.act (dynEpisodeStart env ag es as).2).1)
  unfold runOneEpisodeDyn
  simp only [episodeLoopDyn]
  rw [hxyz]

open Claims PyDyn in
/-- Witness for C9: a concrete contract-abiding environment whose
`step` returns the exact triple; the episode fails on the first step. -/
theorem c9_triple_contract_env_fails_first_step_witness :
    runOneEpisodeDyn tripleEnv unitDynAgent 10 5 () ()
      = Except.error (DynError.unpackError 0) :=
  c9_triple_contract_env_fails_first_step tripleEnv unitDynAgent 10 5 () ()
    (fun _ _ => rfl) (by omega)
